import Mathlib

/-!
Verification of the clawbots decision core: drive pressures, persona
selection with hysteresis and cooldown, conversation turn-taking, and the
emergent-culture engine.  Python dicts are embedded as insertion-ordered
association lists over `String` keys; floats as exact rationals `ℚ`;
`datetime`/`time.time()` values as rational timestamps passed explicitly;
`random.uniform` noise as an explicit parameter.
-/

namespace Clawbots

/-- First-match lookup in an association list (Python `dict[k]` / `dict.get`). -/
def lookupA {β : Type} : List (String × β) → String → Option β
  | [], _ => none
  | (k', v) :: rest, k => if k' = k then some v else lookupA rest k

/-- Lookup with a default (Python `dict.get(k, d)`). -/
def lookupD {β : Type} (l : List (String × β)) (k : String) (d : β) : β :=
  (lookupA l k).getD d

/-- Dict assignment `d[k] = v`: replace in place if the key exists (keeping its
insertion position, as Python dicts do), otherwise append. -/
def setA {β : Type} : List (String × β) → String → β → List (String × β)
  | [], k, v => [(k, v)]
  | (k', v') :: rest, k, v =>
    if k' = k then (k, v) :: rest else (k', v') :: setA rest k v

theorem lookupA_setA_self {β : Type} (l : List (String × β)) (k : String) (v : β) :
    lookupA (setA l k v) k = some v := by
  induction l with
  | nil => simp [setA, lookupA]
  | cons p rest ih =>
    obtain ⟨k', v'⟩ := p
    by_cases h : k' = k
    · simp [setA, lookupA, h]
    · simp [setA, lookupA, h, ih]

theorem lookupA_setA_ne {β : Type} (l : List (String × β)) (k k' : String) (v : β)
    (h : k ≠ k') : lookupA (setA l k v) k' = lookupA l k' := by
  induction l with
  | nil => simp [setA, lookupA, h]
  | cons p rest ih =>
    obtain ⟨k₀, v₀⟩ := p
    by_cases h0 : k₀ = k
    · subst h0
      simp [setA, lookupA, h, Ne.symm h]
    · by_cases h1 : k₀ = k'
      · subst h1
        simp [setA, lookupA, h0, Ne.symm h]
      · simp [setA, lookupA, h0, h1, ih]

theorem mem_setA {β : Type} {l : List (String × β)} {k : String} {v : β}
    {p : String × β} (hp : p ∈ setA l k v) : p ∈ l ∨ p = (k, v) := by
  induction l with
  | nil => simp [setA] at hp; simp [hp]
  | cons q rest ih =>
    obtain ⟨k', v'⟩ := q
    by_cases h : k' = k
    · simp [setA, h] at hp
      rcases hp with h1 | h1
      · right; simp [h1]
      · left; simp [h1]
    · simp [setA, h] at hp
      rcases hp with h1 | h1
      · left; simp [h1]
      · rcases ih h1 with h2 | h2
        · left; simp [h2]
        · right; exact h2

/-! ## Drive model (`core/drives/models.py`, `core/drives/manager.py`) -/

/-- Embeds `Drive` dataclass: per-drive configuration.  `type` holds the
`DriveType` enum's string value. -/
structure Drive where
  type : String
  base_weight : ℚ := 1/2
  decay_rate : ℚ := 1/100
  satisfy_amount : ℚ := 3/10
deriving Repr, DecidableEq

/-- Embeds `DriveState` dataclass: pressures and last-satisfied timestamps keyed by
drive-type string. -/
structure DriveState where
  pressures : List (String × ℚ)
  last_satisfied : List (String × ℚ)
deriving Repr, DecidableEq

/-- Embeds `DriveState.get_dominant_drives`: drives with pressure at or above the
threshold. -/
def DriveState.get_dominant_drives (st : DriveState) (threshold : ℚ := 3/5) :
    List String :=
  (st.pressures.filter (fun p => threshold ≤ p.2)).map Prod.fst

/-- Embeds `DriveState.update_pressure`: read the current pressure (default `0.5`),
add the delta, clamp to `[0, 1]`, and store. -/
def DriveState.update_pressure (st : DriveState) (drive_type : String) (delta : ℚ) :
    DriveState :=
  let current := lookupD st.pressures drive_type (1/2)
  { st with pressures := setA st.pressures drive_type (max 0 (min 1 (current + delta))) }

/-- Embeds `DriveManager`: drive configuration plus mutable state. -/
structure DriveManager where
  drives : List (String × Drive)
  state : DriveState
deriving Repr, DecidableEq

/-- Embeds `DriveManager.__init__`: every configured drive starts at pressure `0.5`;
the pressure dict is keyed by `d.type.value` (a dict comprehension, so a
duplicate type collapses onto one key).  `now` stands for `time.time()`. -/
def DriveManager.init (drives_config : List (String × Drive)) (now : ℚ) :
    DriveManager :=
  { drives := drives_config,
    state :=
      { pressures := drives_config.foldl (fun acc p => setA acc p.2.type (1/2)) [],
        last_satisfied := drives_config.foldl (fun acc p => setA acc p.2.type now) [] } }

/-- Embeds `DriveManager.tick(elapsed_minutes)`: for every configured drive, raise its
pressure by `decay_rate * elapsed_minutes` (clamped by `update_pressure`). -/
def DriveManager.tick (m : DriveManager) (elapsed_minutes : ℚ) : DriveManager :=
  { m with state := m.drives.foldl (fun st p => st.update_pressure p.1 (p.2.decay_rate * elapsed_minutes)) m.state }

/-- Embeds `DriveManager.satisfy(drive_type, amount)`: no-op when the drive kind is
unconfigured; otherwise reduce pressure by `amount or satisfy_amount` (Python
`or`, so a supplied `0.0` falls back to the configured amount) and stamp
`last_satisfied` with the current time. -/
def DriveManager.satisfy (m : DriveManager) (drive_type : String)
    (amount : Option ℚ) (now : ℚ) : DriveManager :=
  match lookupA m.drives drive_type with
  | none => m
  | some d =>
    let amt := match amount with
      | none => d.satisfy_amount
      | some a => if a = 0 then d.satisfy_amount else a
    let st := m.state.update_pressure drive_type (-amt)
    { m with state := { st with last_satisfied := setA st.last_satisfied drive_type now } }

/-- One external call to a `DriveManager`. -/
inductive DMCall where
  | tick (elapsed_minutes : ℚ)
  | satisfy (drive_type : String) (amount : Option ℚ) (now : ℚ)

/-- Apply one call. -/
def DriveManager.step (m : DriveManager) : DMCall → DriveManager
  | .tick e => m.tick e
  | .satisfy dt a now => m.satisfy dt a now

/-- Apply a sequence of calls. -/
def DriveManager.run (m : DriveManager) (calls : List DMCall) : DriveManager :=
  calls.foldl DriveManager.step m

/-- Decidable check that every stored pressure lies in `[0, 1]`. -/
def DriveManager.pressuresIn01 (m : DriveManager) : Bool :=
  m.state.pressures.all (fun p => decide (0 ≤ p.2 ∧ p.2 ≤ 1))

theorem update_pressure_preserves {st : DriveState}
    (h : ∀ p ∈ st.pressures, 0 ≤ p.2 ∧ p.2 ≤ 1) (dt : String) (δ : ℚ) :
    ∀ p ∈ (st.update_pressure dt δ).pressures, 0 ≤ p.2 ∧ p.2 ≤ 1 := by
  intro p hp
  simp only [DriveState.update_pressure] at hp
  rcases mem_setA hp with h1 | h1
  · exact h p h1
  · subst h1
    constructor
    · exact le_max_left 0 _
    · simp only []
      exact max_le (by norm_num) (min_le_left 1 _)

theorem tick_preserves {m : DriveManager}
    (h : ∀ p ∈ m.state.pressures, 0 ≤ p.2 ∧ p.2 ≤ 1) (e : ℚ) :
    ∀ p ∈ (m.tick e).state.pressures, 0 ≤ p.2 ∧ p.2 ≤ 1 := by
  simp only [DriveManager.tick]
  suffices H : ∀ (ds : List (String × Drive)) (st : DriveState),
      (∀ p ∈ st.pressures, 0 ≤ p.2 ∧ p.2 ≤ 1) →
      ∀ p ∈ (ds.foldl
          (fun st p => st.update_pressure p.1 (p.2.decay_rate * e)) st).pressures,
        0 ≤ p.2 ∧ p.2 ≤ 1 by
    exact H m.drives m.state h
  intro ds
  induction ds with
  | nil => intro st hst; simpa using hst
  | cons d rest ih =>
    intro st hst
    simp only [List.foldl_cons]
    exact ih _ (update_pressure_preserves hst _ _)

theorem satisfy_preserves {m : DriveManager}
    (h : ∀ p ∈ m.state.pressures, 0 ≤ p.2 ∧ p.2 ≤ 1)
    (dt : String) (a : Option ℚ) (now : ℚ) :
    ∀ p ∈ (m.satisfy dt a now).state.pressures, 0 ≤ p.2 ∧ p.2 ≤ 1 := by
  simp only [DriveManager.satisfy]
  cases hd : lookupA m.drives dt with
  | none => simpa using h
  | some d =>
    simp only []
    exact update_pressure_preserves h _ _

theorem run_preserves {m : DriveManager}
    (h : ∀ p ∈ m.state.pressures, 0 ≤ p.2 ∧ p.2 ≤ 1) (calls : List DMCall) :
    ∀ p ∈ (m.run calls).state.pressures, 0 ≤ p.2 ∧ p.2 ≤ 1 := by
  induction calls generalizing m with
  | nil => simpa [DriveManager.run] using h
  | cons c rest ih =>
    simp only [DriveManager.run, List.foldl_cons]
    apply ih
    cases c with
    | tick e => exact tick_preserves h e
    | satisfy dt a now => exact satisfy_preserves h dt a now

theorem init_pressures_half (cfg : List (String × Drive)) (now : ℚ) :
    ∀ p ∈ (DriveManager.init cfg now).state.pressures, p.2 = 1/2 := by
  simp only [DriveManager.init]
  suffices H : ∀ (l : List (String × Drive)) (acc : List (String × ℚ)),
      (∀ p ∈ acc, p.2 = (1/2 : ℚ)) →
      ∀ p ∈ l.foldl (fun acc p => setA acc p.2.type (1/2)) acc, p.2 = 1/2 by
    exact H cfg [] (by simp)
  intro l
  induction l with
  | nil => intro acc hacc; simpa using hacc
  | cons d rest ih =>
    intro acc hacc
    simp only [List.foldl_cons]
    apply ih
    intro p hp
    rcases mem_setA hp with h1 | h1
    · exact hacc p h1
    · simp [h1]

/-- C1.  For every drive configuration and every finite sequence of
`tick`/`satisfy` calls with arbitrary elapsed times and amounts, every stored
drive pressure lies in `[0, 1]` after every call (each prefix of the call
sequence is itself a quantified sequence). -/
theorem drive_pressures_always_in_unit_interval
    (cfg : List (String × Drive)) (now : ℚ) (calls : List DMCall) :
    ((DriveManager.init cfg now).run calls).pressuresIn01 = true := by
  have h0 : ∀ p ∈ (DriveManager.init cfg now).state.pressures,
      0 ≤ p.2 ∧ p.2 ≤ 1 := by
    intro p hp
    have := init_pressures_half cfg now p hp
    rw [this]; norm_num
  have := run_preserves h0 calls
  simp only [DriveManager.pressuresIn01, List.all_eq_true, decide_eq_true_eq]
  exact fun p hp => this p hp

/-- A two-drive configuration used for concrete evaluations. -/
def demoDrives : List (String × Drive) :=
  [("social", { type := "social" }), ("teaching", { type := "teaching", base_weight := 3/5 })]

/-- The manager as built at agent creation over `demoDrives`. -/
def demoManager : DriveManager := DriveManager.init demoDrives 0

/-- C8 counterexample.  Calling `satisfy("social", 0.0)` on a fresh manager
(pressure `0.5`, configured `satisfy_amount = 0.3`) yields pressure `0.2`,
not the `clamp01(0.5 − 0.0) = 0.5` the claim demands for a supplied amount of
`0.0`: Python's `amount or default` treats `0.0` as absent. -/
theorem satisfy_zero_amount_uses_configured_default :
    lookupD (demoManager.satisfy "social" (some 0) 5).state.pressures "social" (1/2) = 1/5 ∧
    (1/5 : ℚ) ≠ max 0 (min 1 (lookupD demoManager.state.pressures "social" (1/2) - 0)) := by
  have hp : lookupD demoManager.state.pressures "social" (1/2) = 1/2 := by
    simp [demoManager, demoDrives, DriveManager.init, lookupD, lookupA, setA]
  constructor
  · simp only [demoManager, demoDrives, DriveManager.init, DriveManager.satisfy,
      DriveState.update_pressure, lookupD, lookupA, setA]
    norm_num [max_def, min_def]
  · rw [hp]
    norm_num [max_def, min_def]

/-- C8 (amended).  `satisfy` on a configured drive clamps
`pressure − amount` when a nonzero amount is supplied, falls back to the
configured `satisfy_amount` when the amount is omitted or equals `0.0`
(Python `or` on a float), and stamps `last_satisfied` with the call time; on
an unconfigured drive kind it is a no-op returning the manager unchanged. -/
theorem satisfy_semantics (m : DriveManager) (dt : String) (now : ℚ) :
    (∀ d a, lookupA m.drives dt = some d → a ≠ 0 →
      lookupD (m.satisfy dt (some a) now).state.pressures dt (1/2) =
        max 0 (min 1 (lookupD m.state.pressures dt (1/2) - a)) ∧
      lookupA (m.satisfy dt (some a) now).state.last_satisfied dt = some now) ∧
    (∀ d a, lookupA m.drives dt = some d → (a = none ∨ a = some 0) →
      lookupD (m.satisfy dt a now).state.pressures dt (1/2) =
        max 0 (min 1 (lookupD m.state.pressures dt (1/2) - d.satisfy_amount)) ∧
      lookupA (m.satisfy dt a now).state.last_satisfied dt = some now) ∧
    (∀ a, lookupA m.drives dt = none → m.satisfy dt a now = m) := by
  refine ⟨?_, ?_, ?_⟩
  · intro d a hd ha
    simp only [DriveManager.satisfy, hd, ha, if_neg ha]
    constructor
    · simp [DriveState.update_pressure, lookupD, lookupA_setA_self, sub_eq_add_neg]
    · simp [lookupA_setA_self]
  · intro d a hd ha
    rcases ha with rfl | rfl
    · simp only [DriveManager.satisfy, hd]
      constructor
      · simp [DriveState.update_pressure, lookupD, lookupA_setA_self, sub_eq_add_neg]
      · simp [lookupA_setA_self]
    · simp only [DriveManager.satisfy, hd, if_pos rfl]
      constructor
      · simp [DriveState.update_pressure, lookupD, lookupA_setA_self, sub_eq_add_neg]
      · simp [lookupA_setA_self]
  · intro a hd
    simp [DriveManager.satisfy, hd]

/-- Witness for `satisfy_semantics` at the demo manager: a nonzero explicit
amount of `0.1` drops social pressure from `0.5` to `0.4`; an omitted amount
drops it by the configured `0.3`; an unconfigured kind is a no-op. -/
theorem satisfy_semantics_witness :
    (lookupD (demoManager.satisfy "social" (some (1/10)) 7).state.pressures "social" (1/2) =
        max 0 (min 1 (lookupD demoManager.state.pressures "social" (1/2) - 1/10)) ∧
      lookupA (demoManager.satisfy "social" (some (1/10)) 7).state.last_satisfied "social" = some 7) ∧
    (lookupD (demoManager.satisfy "social" none 7).state.pressures "social" (1/2) =
        max 0 (min 1 (lookupD demoManager.state.pressures "social" (1/2) - 3/10)) ∧
      lookupA (demoManager.satisfy "social" none 7).state.last_satisfied "social" = some 7) ∧
    demoManager.satisfy "rest" none 7 = demoManager := by
  refine ⟨?_, ?_, ?_⟩
  · exact (satisfy_semantics demoManager "social" 7).1 { type := "social" } (1/10)
      (by simp [demoManager, demoDrives, DriveManager.init, lookupA]) (by norm_num)
  · exact (satisfy_semantics demoManager "social" 7).2.1 { type := "social" } none
      (by simp [demoManager, demoDrives, DriveManager.init, lookupA]) (Or.inl rfl)
  · exact (satisfy_semantics demoManager "rest" 7).2.2 none
      (by simp [demoManager, demoDrives, DriveManager.init, lookupA])

/-! ## Persona selection (`core/personas/selector.py`, `core/personas/scoring.py`) -/

/-- The cooldown penalty computed inside `PersonaSelector.select`:
`max(0, 0.3 - time_since / 3600)`. -/
def cooldownPenalty (time_since : ℚ) : ℚ :=
  max 0 (3/10 - time_since / 3600)

/-- C3 counterexample.  The cooldown penalty is already `0` at `1080`
seconds elapsed (not first reaching `0` at `3600`), and it does not strictly
decrease between elapsed times `2000 < 3000`. -/
theorem cooldown_penalty_zero_before_3600 :
    cooldownPenalty 1080 = 0 ∧ (1080 : ℚ) < 3600 ∧
    cooldownPenalty 2000 = cooldownPenalty 3000 ∧ (2000 : ℚ) < 3000 := by
  refine ⟨?_, by norm_num, ?_, by norm_num⟩
  · simp only [cooldownPenalty]
    norm_num
  · simp only [cooldownPenalty]
    rw [max_eq_left (by norm_num), max_eq_left (by norm_num)]

/-- C3 (amended).  The cooldown penalty `max(0, 0.3 − elapsed/3600)` is never
negative, strictly decreases as elapsed time increases while elapsed time is
at most `1080` seconds, and reaches `0` at exactly `1080` seconds elapsed
(zero from then on, strictly positive before). -/
theorem cooldown_penalty_decay (t t1 t2 : ℚ) :
    0 ≤ cooldownPenalty t ∧
    (t1 < t2 → t2 ≤ 1080 → cooldownPenalty t2 < cooldownPenalty t1) ∧
    (1080 ≤ t → cooldownPenalty t = 0) ∧
    (t < 1080 → 0 < cooldownPenalty t) := by
  refine ⟨le_max_left 0 _, ?_, ?_, ?_⟩
  · intro h12 h2
    have hv2 : cooldownPenalty t2 = 3/10 - t2 / 3600 := by
      apply max_eq_right
      linarith
    have hlt : 3/10 - t2 / 3600 < 3/10 - t1 / 3600 := by
      have : t1 / 3600 < t2 / 3600 := by linarith
      linarith
    calc cooldownPenalty t2 = 3/10 - t2 / 3600 := hv2
      _ < 3/10 - t1 / 3600 := hlt
      _ ≤ cooldownPenalty t1 := le_max_right 0 _
  · intro h
    apply max_eq_left
    linarith
  · intro h
    have : (0 : ℚ) < 3/10 - t / 3600 := by linarith
    calc (0 : ℚ) < 3/10 - t / 3600 := this
      _ ≤ cooldownPenalty t := le_max_right 0 _

/-- Witness for `cooldown_penalty_decay`: the penalty strictly drops from
elapsed `100` to `500`, is positive at `100`, and is `0` at `2000`. -/
theorem cooldown_penalty_decay_witness :
    cooldownPenalty 500 < cooldownPenalty 100 ∧
    cooldownPenalty 2000 = 0 ∧ 0 < cooldownPenalty 100 := by
  refine ⟨?_, ?_, ?_⟩
  · exact (cooldown_penalty_decay 0 100 500).2.1 (by norm_num) (by norm_num)
  · exact (cooldown_penalty_decay 2000 0 0).2.2.1 (by norm_num)
  · exact (cooldown_penalty_decay 100 0 0).2.2.2 (by norm_num)

/-- Embeds `Archetype` dataclass (`core/personas/models.py`). -/
structure Archetype where
  role : String
  tone : String
  social_position : String := "neutral"
deriving Repr, DecidableEq

/-- Embeds `Expression` dataclass. -/
structure Expression where
  verbosity : String := "medium"
  humor : String := "low"
  formality : String := "medium"
  emotional_range : String := "medium"
deriving Repr, DecidableEq

/-- Embeds `Persona` dataclass.  Of the free-form `compatibility` dict only the
`drives` sub-dict is ever read (`persona.compatibility.get('drives', {})`),
so it is embedded directly as `compatibility_drives`. -/
structure Persona where
  id : String
  display_name : String
  archetype : Archetype
  expression : Expression
  preferred_actions : List String := []
  avoids : List String := []
  compatibility_drives : List (String × ℚ) := []
deriving Repr, DecidableEq

/-- The `verbosity_map` lookup in `score_persona`, default `0.6`. -/
def verbosityNumeric (s : String) : ℚ :=
  lookupD [("very_low", 1/10), ("low", 3/10), ("medium", 3/5), ("high", 9/10)] s (3/5)

/-- Embeds `score_persona` (`core/personas/scoring.py`): five components —
drive compatibility (clamped to `[-1,1]`), state fit `1 − |energy − v|`,
environment fit (`0.8` for guide/monk in a temple or debater/merchant in a
plaza, else `0.5`), culture affinity lookup (default `0.5`), and `−cooldown`
— combined with weights `0.25/0.20/0.20/0.20/0.15`. -/
def score_persona (persona : Persona) (drives state : List (String × ℚ))
    (env : List (String × String)) (culture : List (String × ℚ))
    (cooldown_penalty : ℚ) : ℚ × List (String × ℚ) :=
  let drive_score :=
    drives.foldl (fun acc p => acc + lookupD persona.compatibility_drives p.1 0 * p.2) 0
  let drive_compat := max (-1) (min 1 drive_score)
  let energy := lookupD state "energy" (1/2)
  let v := verbosityNumeric persona.expression.verbosity
  let state_fit := 1 - |energy - v|
  let location_type := lookupD env "location_type" ""
  let env_score : ℚ :=
    if location_type = "temple" ∧ (persona.archetype.role = "guide" ∨ persona.archetype.role = "monk") then 4/5
    else if location_type = "plaza" ∧ (persona.archetype.role = "debater" ∨ persona.archetype.role = "merchant") then 4/5
    else 1/2
  let culture_score := lookupD culture ("persona_" ++ persona.id ++ "_affinity") (1/2)
  let total := 1/4 * drive_compat + 1/5 * state_fit + 1/5 * env_score +
    1/5 * culture_score + 3/20 * (-cooldown_penalty)
  (total,
    [("drive_compat", drive_compat), ("state_fit", state_fit), ("env_fit", env_score),
      ("culture_fit", culture_score), ("cooldown", -cooldown_penalty)])

/-- A scored candidate `(persona_id, total_score, components)`. -/
abbrev Candidate := String × ℚ × List (String × ℚ)

/-- Embeds `PersonaSelector` (`core/personas/selector.py`): allowed personas,
current persona (Python `Optional[str]`), cooldown timestamps, switch count. -/
structure PersonaSelector where
  personas : List (String × Persona)
  current : Option String
  cooldowns : List (String × ℚ)
  switch_count : Nat
deriving Repr, DecidableEq

/-- Embeds `PersonaSelector.__init__`: keep only the allowed personas. -/
def PersonaSelector.init (personas : List (String × Persona)) (allowed : List String) :
    PersonaSelector :=
  { personas := personas.filter (fun p => allowed.contains p.1),
    current := none, cooldowns := [], switch_count := 0 }

/-- The candidate list built inside `select`: each allowed persona scored with
its cooldown penalty (`cooldowns.get(pid, 0)`). -/
def PersonaSelector.candidates (sel : PersonaSelector) (drives state : List (String × ℚ))
    (env : List (String × String)) (culture : List (String × ℚ))
    (current_time : ℚ) : List Candidate :=
  sel.personas.map (fun p =>
    let last_switch := lookupD sel.cooldowns p.1 0
    let sc := score_persona p.2 drives state env culture
      (cooldownPenalty (current_time - last_switch))
    (p.1, sc.1, sc.2))

/-- Embeds `candidates.sort(key=lambda x: x[1], reverse=True)`: Python's sort is
stable, so this is a stable descending sort on the score. -/
def sortDesc (l : List Candidate) : List Candidate :=
  l.insertionSort (fun x y => y.2.1 ≤ x.2.1)

/-- Embeds `next((s for p, s, _ in candidates if p == self.current), 0)`. -/
def currentScoreIn (cands : List Candidate) (cur : String) : ℚ :=
  ((cands.find? (fun c => c.1 == cur)).map (fun c => c.2.1)).getD 0

/-- Embeds `PersonaSelector.select`: score and sort candidates, then apply the
hysteresis rule; `none` models the `IndexError` Python raises on an empty
candidate list (zero allowed personas).  The `self.current` truthiness test
makes an empty-string current persona behave like `None`. -/
def PersonaSelector.select (sel : PersonaSelector) (drives state : List (String × ℚ))
    (env : List (String × String)) (culture : List (String × ℚ))
    (current_time : ℚ) : Option Candidate :=
  let cands := sortDesc (sel.candidates drives state env culture current_time)
  match cands with
  | [] => none
  | best :: _ =>
    match sel.current with
    | none => some best
    | some cur =>
      if cur ≠ "" ∧ cur ≠ best.1 then
        let current_score := currentScoreIn cands cur
        if best.2.1 - current_score < 3/20 then some (cur, current_score, [])
        else some best
      else some best

/-- Embeds `PersonaSelector.switch_to`: record the switch unless the target already
is the current persona (`persona_id != self.current`; a `None` current
differs from every string). -/
def PersonaSelector.switch_to (sel : PersonaSelector) (persona_id : String)
    (current_time : ℚ) : PersonaSelector :=
  match sel.current with
  | some c =>
    if persona_id = c then sel
    else { sel with cooldowns := setA sel.cooldowns persona_id current_time,
                    current := some persona_id, switch_count := sel.switch_count + 1 }
  | none => { sel with cooldowns := setA sel.cooldowns persona_id current_time,
                       current := some persona_id, switch_count := sel.switch_count + 1 }

/-- C2 (amended).  When the current persona is set (and nonempty, from
Python truthiness) and the top-ranked score beats the current persona's score
by less than `0.15`, `select` keeps the current persona id with its own
score.  The component breakdown is empty exactly when the top-ranked persona
differs from the current one; when the current persona itself ranks top, its
full component breakdown is returned. -/
theorem select_hysteresis_keeps_current (sel : PersonaSelector)
    (drives state : List (String × ℚ)) (env : List (String × String))
    (culture : List (String × ℚ)) (now : ℚ) (c : String) (b : Candidate)
    (rest : List Candidate)
    (hsort : sortDesc (sel.candidates drives state env culture now) = b :: rest)
    (hcur : sel.current = some c) (hne : c ≠ "")
    (hgap : b.2.1 - currentScoreIn (b :: rest) c < 3/20) :
    sel.select drives state env culture now =
      some (c, currentScoreIn (b :: rest) c, if b.1 = c then b.2.2 else []) := by
  simp only [PersonaSelector.select, hsort, hcur]
  by_cases hbc : b.1 = c
  · have hcond : ¬(c ≠ "" ∧ c ≠ b.1) := by
      intro h
      exact h.2 hbc.symm
    rw [if_neg hcond]
    have hscore : currentScoreIn (b :: rest) c = b.2.1 := by
      simp [currentScoreIn, List.find?, hbc]
    rw [hscore, if_pos hbc]
    obtain ⟨bpid, bscore, bcomps⟩ := b
    simp only at hbc
    rw [hbc]
  · have hcond : c ≠ "" ∧ c ≠ b.1 := ⟨hne, fun h => hbc h.symm⟩
    rw [if_pos hcond, if_pos hgap, if_neg hbc]

/-- C10.  `switch_to` with the already-current persona id changes nothing:
`current`, `cooldowns`, and `switch_count` are all untouched. -/
theorem switch_to_current_is_noop (sel : PersonaSelector) (pid : String) (t : ℚ)
    (h : sel.current = some pid) : sel.switch_to pid t = sel := by
  simp [PersonaSelector.switch_to, h]

/-- A minimal persona used in concrete selector runs. -/
def personaA : Persona :=
  { id := "a", display_name := "A", archetype := { role := "guide", tone := "calm" },
    expression := {} }

/-- A second persona identical except for its id. -/
def personaB : Persona :=
  { id := "b", display_name := "B", archetype := { role := "guide", tone := "calm" },
    expression := {} }

/-- The component breakdown `score_persona` produces for `personaA`/`personaB`
with empty drives/state/env/culture at time `0` (cooldown penalty `0.3`). -/
def neutralComps : List (String × ℚ) :=
  [("drive_compat", 0), ("state_fit", 9/10), ("env_fit", 1/2),
    ("culture_fit", 1/2), ("cooldown", -(3/10))]

/-- A selector whose current persona `"a"` is also its only (hence
top-ranked) candidate. -/
def selCurrentTop : PersonaSelector :=
  { personas := [("a", personaA)], current := some "a", cooldowns := [], switch_count := 0 }

/-- C2 counterexample.  With current persona `"a"` also ranked top, the
best-minus-current margin is `0 < 0.15`, yet `select` returns `"a"` with its
full five-entry component breakdown — not the empty breakdown the claim
demands regardless of which persona ranks top. -/
theorem select_current_top_returns_full_components :
    selCurrentTop.current = some "a" ∧
    sortDesc (selCurrentTop.candidates [] [] [] [] 0) = [("a", 67/200, neutralComps)] ∧
    (67/200 : ℚ) - currentScoreIn [("a", 67/200, neutralComps)] "a" < 3/20 ∧
    selCurrentTop.select [] [] [] [] 0 = some ("a", 67/200, neutralComps) ∧
    neutralComps ≠ [] := by
  have hsort : sortDesc (selCurrentTop.candidates [] [] [] [] 0) =
      [("a", 67/200, neutralComps)] := by
    norm_num +decide [sortDesc, List.insertionSort, List.orderedInsert,
      PersonaSelector.candidates, score_persona, cooldownPenalty, verbosityNumeric,
      lookupD, lookupA, selCurrentTop, personaA, neutralComps, max_def, min_def,
      abs_of_nonneg, abs_of_nonpos]
  refine ⟨rfl, hsort, ?_, ?_, by simp [neutralComps]⟩
  · norm_num +decide [currentScoreIn, List.find?]
  · simp only [PersonaSelector.select, hsort]
    norm_num +decide [selCurrentTop]

/-- A selector whose current persona `"b"` ties with the top-ranked `"a"`
(stable sort keeps catalog order, so `"a"` ranks first). -/
def selCurrentSecond : PersonaSelector :=
  { personas := [("a", personaA), ("b", personaB)], current := some "b",
    cooldowns := [], switch_count := 0 }

/-- Witness for `select_hysteresis_keeps_current`: with a `0 < 0.15` margin
over the current persona `"b"`, `select` keeps `"b"` with its own score and
an empty breakdown (the top-ranked persona is `"a" ≠ "b"`). -/
theorem select_hysteresis_keeps_current_witness :
    selCurrentSecond.select [] [] [] [] 0 = some ("b", 67/200, []) := by
  have hsort : sortDesc (selCurrentSecond.candidates [] [] [] [] 0) =
      [("a", 67/200, neutralComps), ("b", 67/200, neutralComps)] := by
    norm_num +decide [sortDesc, List.insertionSort, List.orderedInsert,
      PersonaSelector.candidates, score_persona, cooldownPenalty, verbosityNumeric,
      lookupD, lookupA, selCurrentSecond, personaA, personaB, neutralComps,
      max_def, min_def, abs_of_nonneg, abs_of_nonpos]
  have hscore : currentScoreIn
      [("a", 67/200, neutralComps), ("b", 67/200, neutralComps)] "b" = 67/200 := by
    simp +decide [currentScoreIn, List.find?]
  have h := select_hysteresis_keeps_current selCurrentSecond [] [] [] [] 0 "b"
    ("a", 67/200, neutralComps) [("b", 67/200, neutralComps)] hsort rfl
    (by simp) (by rw [hscore]; norm_num)
  rw [h, hscore]
  norm_num +decide

/-- Witness for `switch_to_current_is_noop`: switching `selCurrentTop` to its
current persona `"a"` returns the selector unchanged. -/
theorem switch_to_current_is_noop_witness :
    selCurrentTop.switch_to "a" 42 = selCurrentTop :=
  switch_to_current_is_noop selCurrentTop "a" 42 rfl

/-! ## Conversation orchestration (`engines/conversation.py`) -/

/-- Embeds `Message` dataclass. -/
structure Message where
  id : String
  speaker_id : String
  speaker_name : String
  content : String
  timestamp : ℚ
  reply_to : Option String := none
  importance : ℚ := 1/2
deriving Repr, DecidableEq

/-- Embeds `ConversationState` dataclass: message log, per-agent last-spoke times,
optional topic, creation time. -/
structure ConversationState where
  messages : List Message
  participants : List (String × ℚ)
  topic : Option String := none
  started_at : Option ℚ := none
deriving Repr, DecidableEq

/-- The empty conversation `get_or_create` builds lazily
(`ConversationState(started_at=datetime.now())`). -/
def ConversationState.fresh (now : ℚ) : ConversationState :=
  { messages := [], participants := [], topic := none, started_at := some now }

/-- Embeds `ConversationState.is_active`: most recent message within 5 minutes. -/
def ConversationState.is_active (c : ConversationState) (now : ℚ) : Bool :=
  match c.messages.getLast? with
  | none => false
  | some m => decide (now - m.timestamp < 5 * 60)

/-- Embeds `ConversationState.time_since_last_spoke`, in seconds; `none` models the
`float('inf')` returned for an agent who never spoke. -/
def ConversationState.time_since_last_spoke (c : ConversationState) (agent_id : String)
    (now : ℚ) : Option ℚ :=
  (lookupA c.participants agent_id).map (fun t => now - t)

/-- Embeds `ConversationOrchestrator`: per-location conversations plus the delay and
silence constants set in `__init__`. -/
structure ConversationOrchestrator where
  conversations : List (String × ConversationState)
  min_response_delay : ℚ
  max_response_delay : ℚ
  silence_threshold : ℚ
deriving Repr, DecidableEq

/-- A fresh orchestrator (`__init__`: delays 1.0/5.0, threshold 0.3). -/
def ConversationOrchestrator.empty : ConversationOrchestrator :=
  { conversations := [], min_response_delay := 1, max_response_delay := 5,
    silence_threshold := 3/10 }

/-- The conversation `get_or_create(location)` yields.  Python also inserts
the fresh conversation into the registry; since the inserted value is exactly
the default this read-through produces, every later read is unaffected, so
readers are embedded through `convAt` and only `add_message` writes. -/
def ConversationOrchestrator.convAt (o : ConversationOrchestrator) (location : String)
    (now : ℚ) : ConversationState :=
  (lookupA o.conversations location).getD (ConversationState.fresh now)

/-- Embeds `add_message`: append to the location's conversation and stamp the
speaker's last-spoke time with the message timestamp. -/
def ConversationOrchestrator.add_message (o : ConversationOrchestrator)
    (location : String) (m : Message) (now : ℚ) : ConversationOrchestrator :=
  let conv := o.convAt location now
  let conv' := { conv with messages := conv.messages ++ [m], participants := setA conv.participants m.speaker_id m.timestamp }
  { o with conversations := setA o.conversations location conv' }

/-- Embeds `should_respond(agent_id, agent_drives, agent_state, location)`.
`now` stands for `datetime.now()` and `noise` for the
`random.uniform(-0.1, 0.1)` draw. -/
def ConversationOrchestrator.should_respond (o : ConversationOrchestrator)
    (agent_id : String) (agent_drives agent_state : List (String × ℚ))
    (location : String) (now noise : ℚ) : Bool × ℚ × String :=
  let conv := o.convAt location now
  match conv.messages.getLast? with
  | none =>
    let social_drive := lookupD agent_drives "social" (1/2)
    if social_drive > 7/10 then (true, 3/5, "high_social_drive_initiate")
    else (false, 0, "no_conversation")
  | some last_message =>
    if last_message.speaker_id = agent_id then (false, 0, "just_spoke")
    else
      let social := lookupD agent_drives "social" (1/2)
      let urgency₁ := social * (3/10)
      let reasons₁ : List String := if social > 7/10 then ["social_drive"] else []
      let teaching := lookupD agent_drives "teaching" (1/2)
      let hasQuestion := last_message.content.contains '?'
      let urgency₂ := if hasQuestion then urgency₁ + teaching * (2/5) else urgency₁
      let reasons₂ :=
        if hasQuestion ∧ teaching > 1/2 then reasons₁ ++ ["teaching_opportunity"]
        else reasons₁
      let energy := lookupD agent_state "energy" (1/2)
      let urgency₃ := urgency₂ * energy
      let time_silent := conv.time_since_last_spoke agent_id now
      let spoke_recently : Bool :=
        match time_silent with
        | some t => decide (t < 30)
        | none => false
      let been_quiet : Bool :=
        match time_silent with
        | some t => decide (t > 120)
        | none => true
      let urgency₄ :=
        if spoke_recently then urgency₃ * (1/2)
        else if been_quiet then urgency₃ * (6/5)
        else urgency₃
      let reasons₃ :=
        if spoke_recently then reasons₂ ++ ["recently_spoke"]
        else if been_quiet then reasons₂ ++ ["been_quiet"]
        else reasons₂
      let urgency₅ := max 0 (min 1 (urgency₄ + noise))
      let should := urgency₅ > o.silence_threshold
      let reason := if reasons₃.isEmpty then "general" else String.intercalate "_" reasons₃
      (should, urgency₅, reason)

/-- Embeds `get_response_delay(urgency)`; `noise` models `random.uniform(-0.5, 0.5)`. -/
def ConversationOrchestrator.get_response_delay (o : ConversationOrchestrator)
    (urgency noise : ℚ) : ℚ :=
  let delay_range := o.max_response_delay - o.min_response_delay
  let delay := o.max_response_delay - urgency * delay_range + noise
  max o.min_response_delay delay

/-- C6.  Whenever the location's conversation has at least one message and
its most recent message was spoken by this agent, `should_respond` returns
exactly `(False, 0.0, "just_spoke")`, for all drive pressures, agent state,
and noise. -/
theorem should_respond_just_spoke (o : ConversationOrchestrator) (agent_id : String)
    (agent_drives agent_state : List (String × ℚ)) (location : String) (now noise : ℚ)
    (m : Message) (hm : (o.convAt location now).messages.getLast? = some m)
    (hs : m.speaker_id = agent_id) :
    o.should_respond agent_id agent_drives agent_state location now noise =
      (false, 0, "just_spoke") := by
  simp only [ConversationOrchestrator.should_respond, hm, hs, if_pos]

/-- A throwaway message with the given id, speaker, and timestamp. -/
def mkMsg (i speaker : String) (ts : ℚ) : Message :=
  { id := i, speaker_id := speaker, speaker_name := speaker, content := "hi",
    timestamp := ts }

/-- Witness for `should_respond_just_spoke`: the sender of the only message
at `"plaza"` is told not to respond. -/
theorem should_respond_just_spoke_witness :
    (ConversationOrchestrator.empty.add_message "plaza"
        (mkMsg "m1" "alice" 100) 100).should_respond "alice"
      [("social", 1)] [("energy", 1)] "plaza" 130 0 = (false, 0, "just_spoke") := by
  apply should_respond_just_spoke (m := mkMsg "m1" "alice" 100)
  · simp [ConversationOrchestrator.add_message, ConversationOrchestrator.convAt,
      ConversationOrchestrator.empty, ConversationState.fresh, lookupA, setA]
  · rfl

/-- C7.  When the location's conversation has no messages, `should_respond`
returns `(True, 0.6, "high_social_drive_initiate")` exactly when the agent's
social pressure (`drives.get('social', 0.5)`) exceeds `0.7`, and otherwise
`(False, 0.0, "no_conversation")`. -/
theorem should_respond_empty_conversation (o : ConversationOrchestrator)
    (agent_id : String) (agent_drives agent_state : List (String × ℚ))
    (location : String) (now noise : ℚ)
    (h : (o.convAt location now).messages = []) :
    o.should_respond agent_id agent_drives agent_state location now noise =
      (if lookupD agent_drives "social" (1/2) > 7/10
        then (true, 3/5, "high_social_drive_initiate")
        else (false, 0, "no_conversation")) := by
  simp only [ConversationOrchestrator.should_respond, h, List.getLast?]

/-- Witness for `should_respond_empty_conversation`: scenario 2 of the spec —
social pressure `0.75`, energy `1.0`, no conversation at the location —
yields `(True, 0.6, "high_social_drive_initiate")`; social pressure `0.7`
exactly yields silence with urgency `0`. -/
theorem should_respond_empty_conversation_witness :
    ConversationOrchestrator.empty.should_respond "alice" [("social", 3/4)]
      [("energy", 1)] "plaza" 0 0 = (true, 3/5, "high_social_drive_initiate") ∧
    ConversationOrchestrator.empty.should_respond "alice" [("social", 7/10)]
      [("energy", 1)] "plaza" 0 0 = (false, 0, "no_conversation") := by
  constructor
  · rw [should_respond_empty_conversation _ _ _ _ _ _ _ (by rfl)]
    norm_num [lookupD, lookupA]
  · rw [should_respond_empty_conversation _ _ _ _ _ _ _ (by rfl)]
    norm_num [lookupD, lookupA]

/-- Timestamp-ascending order on a message list. -/
def tsSorted (l : List Message) : Prop :=
  l.Chain' (fun a b => a.timestamp ≤ b.timestamp)

/-- C9 counterexample.  `add_message` only appends: adding a message with
timestamp `10` and then one with timestamp `5` leaves the conversation's
message list out of timestamp order. -/
theorem add_message_can_break_timestamp_order :
    ¬ tsSorted (((ConversationOrchestrator.empty.add_message "plaza"
        (mkMsg "m1" "alice" 10) 0).add_message "plaza"
        (mkMsg "m2" "bob" 5) 0).convAt "plaza" 0).messages := by
  intro h
  have : (((ConversationOrchestrator.empty.add_message "plaza"
      (mkMsg "m1" "alice" 10) 0).add_message "plaza"
      (mkMsg "m2" "bob" 5) 0).convAt "plaza" 0).messages =
      [mkMsg "m1" "alice" 10, mkMsg "m2" "bob" 5] := by
    simp [ConversationOrchestrator.add_message, ConversationOrchestrator.convAt,
      ConversationOrchestrator.empty, ConversationState.fresh, lookupA, setA]
  rw [this] at h
  simp only [tsSorted, List.chain'_cons, List.chain'_singleton, and_true, mkMsg] at h
  norm_num at h

/-- C9 (amended).  The message list holds exactly the added messages in call
order (`add_message` appends); consequently it is timestamp-ascending
precisely when the messages were supplied in nondecreasing timestamp order. -/
theorem add_message_keeps_call_order (location : String) (msgs : List Message)
    (now : ℚ) :
    ((msgs.foldl (fun o m => o.add_message location m now)
        ConversationOrchestrator.empty).convAt location now).messages = msgs ∧
    (tsSorted msgs →
      tsSorted ((msgs.foldl (fun o m => o.add_message location m now)
        ConversationOrchestrator.empty).convAt location now).messages) := by
  have key : ∀ (l : List Message) (o : ConversationOrchestrator),
      ((l.foldl (fun o m => o.add_message location m now) o).convAt location now).messages =
        (o.convAt location now).messages ++ l := by
    intro l
    induction l with
    | nil => intro o; simp
    | cons m rest ih =>
      intro o
      simp only [List.foldl_cons]
      rw [ih]
      have : ((o.add_message location m now).convAt location now).messages =
          (o.convAt location now).messages ++ [m] := by
        simp [ConversationOrchestrator.add_message, ConversationOrchestrator.convAt,
          ConversationState.fresh, lookupA_setA_self]
      rw [this, List.append_assoc]
      rfl
  have h1 : ((msgs.foldl (fun o m => o.add_message location m now)
      ConversationOrchestrator.empty).convAt location now).messages = msgs := by
    rw [key msgs ConversationOrchestrator.empty]
    simp [ConversationOrchestrator.convAt, ConversationOrchestrator.empty,
      ConversationState.fresh, lookupA]
  exact ⟨h1, fun hs => by rw [h1]; exact hs⟩

/-- Witness for `add_message_keeps_call_order`: two in-order messages come
back in call order and timestamp-sorted. -/
theorem add_message_keeps_call_order_witness :
    ((([mkMsg "m1" "alice" 5, mkMsg "m2" "bob" 10].foldl
        (fun o m => o.add_message "plaza" m 0)
        ConversationOrchestrator.empty).convAt "plaza" 0).messages =
      [mkMsg "m1" "alice" 5, mkMsg "m2" "bob" 10]) ∧
    tsSorted ((([mkMsg "m1" "alice" 5, mkMsg "m2" "bob" 10].foldl
        (fun o m => o.add_message "plaza" m 0)
        ConversationOrchestrator.empty).convAt "plaza" 0).messages) := by
  refine ⟨(add_message_keeps_call_order "plaza" _ 0).1, ?_⟩
  apply (add_message_keeps_call_order "plaza" _ 0).2
  simp only [tsSorted, List.chain'_cons, List.chain'_singleton, and_true, mkMsg]
  norm_num

/-! ## Culture engine (`engines/culture.py`) -/

/-- Embeds `CultureRecord` dataclass.  The free-form `scope` dict only ever holds a
`location` entry (plus `min_participants` for rituals), embedded as optional
fields. -/
structure CultureRecord where
  id : String
  kind : String
  summary : String
  strength : ℚ
  last_observed : ℚ
  evidence_ids : List String := []
  scope_location : Option String := none
  scope_min_participants : Option Nat := none
deriving Repr, DecidableEq

/-- Embeds `CultureRecord.decay(hours, rate=0.01)`: strength floored at `0`. -/
def CultureRecord.decay (r : CultureRecord) (hours : ℚ) (rate : ℚ := 1/100) :
    CultureRecord :=
  { r with strength := max 0 (r.strength - rate * hours) }

/-- Embeds `CultureRecord.reinforce(amount=0.1)`: strength capped at `1`,
`last_observed` stamped with the current time. -/
def CultureRecord.reinforce (r : CultureRecord) (now : ℚ) (amount : ℚ := 1/10) :
    CultureRecord :=
  { r with strength := min 1 (r.strength + amount), last_observed := now }

/-- Embeds `CultureEngine`: record registry keyed by record id, behavior counters
keyed by `"{location}:{behavior}"` then agent id, and the two thresholds set
in `__init__`. -/
structure CultureEngine where
  records : List (String × CultureRecord)
  behavior_counts : List (String × List (String × Nat))
  promote_threshold : ℚ
  archive_threshold : ℚ
deriving Repr, DecidableEq

/-- Embeds `CultureEngine.__init__`. -/
def CultureEngine.init : CultureEngine :=
  { records := [], behavior_counts := [], promote_threshold := 3/5,
    archive_threshold := 1/5 }

/-- The record id `f"norm:{location}:{behavior}"`. -/
def normId (location behavior : String) : String :=
  "norm:" ++ location ++ ":" ++ behavior

/-- The per-agent counter map for `key` after one more observation by
`agent_id` (the defaultdict reads `{}`/`0` for missing entries). -/
def postAgentCounts (e : CultureEngine) (key agent_id : String) :
    List (String × Nat) :=
  let ag := (lookupA e.behavior_counts key).getD []
  setA ag agent_id (lookupD ag agent_id 0 + 1)

/-- Embeds `_maybe_create_norm`: reinforce (+evidence) an existing record under the
norm id, else create one with strength `0.4`. -/
def CultureEngine.maybe_create_norm (e : CultureEngine)
    (behavior location event_id : String) (now : ℚ) : CultureEngine :=
  let record_id := normId location behavior
  match lookupA e.records record_id with
  | some r =>
    let r' := r.reinforce now
    let r'' := { r' with evidence_ids := r'.evidence_ids ++ [event_id] }
    { e with records := setA e.records record_id r'' }
  | none =>
    let fresh : CultureRecord :=
      { id := record_id, kind := "norm",
        summary := "Agents tend to " ++ behavior ++ " in " ++ location,
        strength := 2/5, last_observed := now, evidence_ids := [event_id],
        scope_location := some location }
    { e with records := setA e.records record_id fresh }

/-- Embeds `observe_behavior`: bump the `(location:behavior, agent)` counter, then
promote to a norm when the post-bump totals reach `≥ 5` observations from
`≥ 2` distinct agents. -/
def CultureEngine.observe_behavior (e : CultureEngine)
    (behavior agent_id location event_id : String) (now : ℚ) : CultureEngine :=
  let key := location ++ ":" ++ behavior
  let ag' := postAgentCounts e key agent_id
  let e' := { e with behavior_counts := setA e.behavior_counts key ag' }
  let total := (ag'.map Prod.snd).sum
  let unique_agents := ag'.length
  if 5 ≤ total ∧ 2 ≤ unique_agents then
    e'.maybe_create_norm behavior location event_id now
  else e'

/-- Embeds `tick(hours)`: decay every record, then delete those whose strength fell
below `archive_threshold`. -/
def CultureEngine.tick (e : CultureEngine) (hours : ℚ := 1) : CultureEngine :=
  let decayed := e.records.map (fun p => (p.1, p.2.decay hours))
  { e with records := decayed.filter (fun p => ¬ p.2.strength < e.archive_threshold) }

/-- How many entries of an association list carry the given key. -/
def countKey {β : Type} (l : List (String × β)) (k : String) : Nat :=
  (l.filter (fun p => p.1 == k)).length

theorem countKey_setA {β : Type} (l : List (String × β)) (k : String) (v : β) :
    countKey (setA l k v) k =
      (match lookupA l k with
        | none => countKey l k + 1
        | some _ => countKey l k) := by
  induction l with
  | nil => simp [setA, countKey, lookupA]
  | cons p rest ih =>
    obtain ⟨k', v'⟩ := p
    by_cases h : k' = k
    · simp [setA, countKey, lookupA, h]
    · simp only [setA, if_neg h, countKey, List.filter, lookupA]
      have hb : (k' == k) = false := by simp [h]
      simp only [hb, if_neg h]
      cases hl : lookupA rest k with
      | none => simpa [countKey, hl] using ih
      | some w => simpa [countKey, hl] using ih

theorem countKey_zero_lookupA_none {β : Type} (l : List (String × β)) (k : String)
    (h : countKey l k = 0) : lookupA l k = none := by
  induction l with
  | nil => rfl
  | cons p rest ih =>
    obtain ⟨k', v'⟩ := p
    by_cases hk : k' = k
    · exfalso
      simp [countKey, List.filter_cons, hk] at h
    · have hb : (k' == k) = false := by simp [hk]
      simp only [countKey, List.filter_cons, hb, Bool.false_eq_true, if_false] at h
      simp only [lookupA, if_neg hk]
      exact ih h

theorem lookupA_none_countKey_zero {β : Type} (l : List (String × β)) (k : String)
    (h : lookupA l k = none) : countKey l k = 0 := by
  induction l with
  | nil => simp [countKey]
  | cons p rest ih =>
    obtain ⟨k', v'⟩ := p
    by_cases hk : k' = k
    · simp [lookupA, hk] at h
    · simp only [lookupA, if_neg hk] at h
      have hb : (k' == k) = false := by simp [hk]
      simp only [countKey, List.filter, hb]
      exact ih h

/-- Runs `observe_behavior` repeatedly for one behavior at one location, all
observations made by the same single agent, starting from a fresh engine. -/
def runSingleAgent (behavior agent_id location : String) (events : List String)
    (now : ℚ) : CultureEngine :=
  events.foldl (fun e ev => e.observe_behavior behavior agent_id location ev now)
    CultureEngine.init

theorem single_agent_invariant (behavior agent_id location : String) (now : ℚ)
    (events : List String) :
    ∀ (e : CultureEngine) (n : Nat),
      e.records = [] →
      e.behavior_counts = [(location ++ ":" ++ behavior, [(agent_id, n)])] →
      (events.foldl (fun e ev => e.observe_behavior behavior agent_id location ev now)
          e).records = [] := by
  induction events with
  | nil => intro e n h1 _; simpa using h1
  | cons ev rest ih =>
    intro e n h1 h2
    simp only [List.foldl_cons]
    apply ih _ (n + 1)
    · simp [CultureEngine.observe_behavior, postAgentCounts, h1, h2,
        lookupA, lookupD, setA]
    · simp [CultureEngine.observe_behavior, postAgentCounts, h2,
        lookupA, lookupD, setA]

/-- C4.  (a) Observations of one behavior at one location all made by a
single agent never create any culture record, however many there are.
(b) One `observe_behavior` call whose post-bump counters reach `≥ 5` total
observations from `≥ 2` distinct agents leaves exactly one record under the
`norm:location:behavior` id: created with strength `0.4` if absent, else the
existing record reinforced by `+0.1` capped at `1.0` (with the event id
appended to its evidence). -/
theorem culture_norm_promotion :
    (∀ behavior agent_id location events now,
      (runSingleAgent behavior agent_id location events now).records = []) ∧
    (∀ (e : CultureEngine) (behavior agent_id location event_id : String) (now : ℚ),
      5 ≤ ((postAgentCounts e (location ++ ":" ++ behavior) agent_id).map Prod.snd).sum →
      2 ≤ (postAgentCounts e (location ++ ":" ++ behavior) agent_id).length →
      (lookupA e.records (normId location behavior) = none →
        lookupA (e.observe_behavior behavior agent_id location event_id now).records
            (normId location behavior) =
          some { id := normId location behavior, kind := "norm",
                 summary := "Agents tend to " ++ behavior ++ " in " ++ location,
                 strength := 2/5, last_observed := now, evidence_ids := [event_id],
                 scope_location := some location }) ∧
      (∀ r, lookupA e.records (normId location behavior) = some r →
        lookupA (e.observe_behavior behavior agent_id location event_id now).records
            (normId location behavior) =
          some { r with strength := min 1 (r.strength + 1/10), last_observed := now,
                        evidence_ids := r.evidence_ids ++ [event_id] }) ∧
      (countKey e.records (normId location behavior) ≤ 1 →
        countKey (e.observe_behavior behavior agent_id location event_id now).records
            (normId location behavior) = 1)) := by
  constructor
  · intro behavior agent_id location events now
    cases events with
    | nil => rfl
    | cons ev rest =>
      simp only [runSingleAgent, List.foldl_cons]
      apply single_agent_invariant behavior agent_id location now rest _ 1
      · simp [CultureEngine.observe_behavior, CultureEngine.init, postAgentCounts,
          lookupA, lookupD, setA]
      · simp [CultureEngine.observe_behavior, CultureEngine.init, postAgentCounts,
          lookupA, lookupD, setA]
  · intro e behavior agent_id location event_id now h5 h2
    have hcond : (5 ≤ ((postAgentCounts e (location ++ ":" ++ behavior) agent_id).map
        Prod.snd).sum ∧ 2 ≤ (postAgentCounts e (location ++ ":" ++ behavior) agent_id).length) :=
      ⟨h5, h2⟩
    refine ⟨?_, ?_, ?_⟩
    · intro hnone
      simp only [CultureEngine.observe_behavior, if_pos hcond,
        CultureEngine.maybe_create_norm, hnone]
      exact lookupA_setA_self _ _ _
    · intro r hr
      simp only [CultureEngine.observe_behavior, if_pos hcond,
        CultureEngine.maybe_create_norm, hr, CultureRecord.reinforce]
      exact lookupA_setA_self _ _ _
    · intro hcount
      cases hnone : lookupA e.records (normId location behavior) with
      | none =>
        simp only [CultureEngine.observe_behavior, if_pos hcond,
          CultureEngine.maybe_create_norm, hnone]
        rw [countKey_setA, hnone, lookupA_none_countKey_zero _ _ hnone]
      | some r =>
        simp only [CultureEngine.observe_behavior, if_pos hcond,
          CultureEngine.maybe_create_norm, hnone]
        rw [countKey_setA, hnone]
        show countKey e.records (normId location behavior) = 1
        have h1 : 1 ≤ countKey e.records (normId location behavior) := by
          by_contra hlt
          have h0 : countKey e.records (normId location behavior) = 0 := by omega
          rw [countKey_zero_lookupA_none _ _ h0] at hnone
          exact Option.noConfusion hnone
        omega

/-- An engine that has seen `"bow"` at `"plaza"` four times from agent `"a"`. -/
def cultureAfterFour : CultureEngine :=
  runSingleAgent "bow" "a" "plaza" ["e1", "e2", "e3", "e4"] 0

/-- Witness for `culture_norm_promotion`: ten single-agent observations
create no record, while a fifth observation from a second agent creates the
single norm record at strength `0.4`. -/
theorem culture_norm_promotion_witness :
    (runSingleAgent "bow" "a" "plaza"
      ["e1", "e2", "e3", "e4", "e5", "e6", "e7", "e8", "e9", "e10"] 0).records = [] ∧
    lookupA (cultureAfterFour.observe_behavior "bow" "b" "plaza" "e5" 0).records
        (normId "plaza" "bow") =
      some { id := normId "plaza" "bow", kind := "norm",
             summary := "Agents tend to bow in plaza",
             strength := 2/5, last_observed := 0, evidence_ids := ["e5"],
             scope_location := some "plaza" } ∧
    countKey (cultureAfterFour.observe_behavior "bow" "b" "plaza" "e5" 0).records
        (normId "plaza" "bow") = 1 := by
  have hcounts : postAgentCounts cultureAfterFour ("plaza" ++ ":" ++ "bow") "b" =
      [("a", 4), ("b", 1)] := by
    simp +decide [cultureAfterFour, runSingleAgent, CultureEngine.observe_behavior,
      CultureEngine.init, postAgentCounts, lookupA, lookupD, setA]
  have hrec : lookupA cultureAfterFour.records (normId "plaza" "bow") = none := by
    simp only [cultureAfterFour]
    rw [culture_norm_promotion.1 "bow" "a" "plaza" ["e1", "e2", "e3", "e4"] 0]
    rfl
  have h := culture_norm_promotion.2 cultureAfterFour "bow" "b" "plaza" "e5" 0
    (by rw [hcounts]; norm_num) (by rw [hcounts]; norm_num)
  refine ⟨culture_norm_promotion.1 "bow" "a" "plaza" _ 0, ?_, ?_⟩
  · have := h.1 hrec
    simpa using this
  · exact h.2.2 (by rw [lookupA_none_countKey_zero _ _ hrec]; norm_num)

/-- A culture record at strength `0.21`, on the archive boundary. -/
def weakNorm : CultureRecord :=
  { id := normId "plaza" "bow", kind := "norm",
    summary := "Agents tend to bow in plaza", strength := 21/100,
    last_observed := 0, evidence_ids := ["e1"], scope_location := some "plaza" }

/-- The engine holding only `weakNorm`. -/
def weakEngine : CultureEngine :=
  { CultureEngine.init with records := [(normId "plaza" "bow", weakNorm)] }

/-- C5.  After any `tick(hours)` no record with decayed strength below the
engine's archive threshold survives; concretely, the strength-`0.21` record
decays to `0.19` over a 2-hour tick and is deleted. -/
theorem tick_archives_weak_records :
    (∀ (e : CultureEngine) (hours : ℚ),
      (e.tick hours).records.all
        (fun p => decide (e.archive_threshold ≤ p.2.strength)) = true) ∧
    (weakNorm.decay 2).strength = 19/100 ∧
    lookupA (weakEngine.tick 2).records (normId "plaza" "bow") = none ∧
    (weakEngine.tick 2).records = [] := by
  refine ⟨?_, ?_, ?_, ?_⟩
  · intro e hours
    simp only [CultureEngine.tick, List.all_eq_true, decide_eq_true_eq]
    intro p hp
    have := List.of_mem_filter hp
    simp only [decide_not, Bool.not_eq_true', decide_eq_false_iff_not, not_lt,
      decide_eq_true_eq] at this
    exact this
  · simp only [CultureRecord.decay, weakNorm]
    norm_num [max_def]
  · have : (weakEngine.tick 2).records = [] := by
      simp only [CultureEngine.tick, weakEngine, weakNorm, CultureEngine.init,
        CultureRecord.decay, List.map, List.filter]
      norm_num [max_def]
    rw [this]
    rfl
  · simp only [CultureEngine.tick, weakEngine, weakNorm, CultureEngine.init,
      CultureRecord.decay, List.map, List.filter]
    norm_num [max_def]

end Clawbots
